import Mathlib

/-!
Shallow embedding of `excel_session_manager` (Python) for checking its
natural-language specification.

The embedding models the pure data manipulation of the repository:
  * `src/core/external_links_manager.py` — `ExternalLink` records, the
    per-workbook scan loop with its duplicate check, grouping by target
    file, and keyword search;
  * `src/excel_session_manager_link_updater.py` — the link-update decision
    (`check_and_update_links`, `is_workbook_open`);
  * `src/core/session_manager.py` — session file rows written by
    `save_session` and the path-existence filter of `load_session`;
  * `src/core/excel_manager.py` — the save retry loop;
  * `src/core/performance_monitor.py` — the bounded `deque` buffers;
  * `src/utils/file_utils.py` — `get_file_mtime_str` and `parse_mtime`.

COM objects (Excel, workbooks, worksheets, cells) are modelled by the data
the Python code reads from them; the file system is modelled by explicit
functions (existence predicates, modification times).  Python exceptions
that a function swallows into a default are modelled by that default;
fallible parsing returns `Option`.
-/

namespace ExcelSessionManager

/-! ## Python string primitives

Python's `str.split` family, embedded on character lists so that every
definition evaluates by kernel reduction. -/

/-- Splitting a character list at every character satisfying `p`, keeping
empty segments — the common core of Python's `str.split(sep)` (with
`p c = (c = sep)`) and of the no-argument whitespace variant. -/
def splitP (p : Char → Bool) : List Char → List (List Char)
  | [] => [[]]
  | c :: rest =>
    if p c then [] :: splitP p rest
    else
      match splitP p rest with
      | [] => [[c]]
      | g :: gs => (c :: g) :: gs

/-- Embeds Python's `s.split()` (no separator): split on whitespace runs
and drop empty segments. -/
def pySplitWhitespace (cs : List Char) : List (List Char) :=
  (splitP Char.isWhitespace cs).filter fun g => !g.isEmpty

/-- Embeds Python's `s.split(sep)` for a one-character separator: empty
segments are kept. -/
def pySplitChar (sep : Char) (cs : List Char) : List (List Char) :=
  splitP (fun c => c = sep) cs

/-- Python's `s.split(sep)` on `String`. -/
def pySplitStr (sep : Char) (s : String) : List String :=
  (pySplitChar sep s.data).map String.mk

/-- Python's `c in s` for a single character. -/
def strContainsChar (s : String) (c : Char) : Bool :=
  s.data.contains c

/-- Python's slice `s[:-n]` for `n ≤ len(s)`: drop the last `n`
characters. -/
def strDropRight (s : String) (n : Nat) : String :=
  String.mk (s.data.take (s.data.length - n))

/-! ## Data model: `external_links_manager.py` -/

/-- Embeds the `ExternalLink` dataclass (`external_links_manager.py`,
`@dataclass class ExternalLink`): source workbook/sheet/cell, target file,
formula text and link type (`'LinkSource'` or `'Formula'`). -/
structure ExternalLink where
  source_workbook : String
  source_sheet : String
  source_cell : String
  target_file : String
  formula : String
  link_type : String
deriving DecidableEq, Repr

/-- Embeds the `ExternalFileGroup` dataclass: one external file together
with the list of links referencing it and the reference count. -/
structure ExternalFileGroup where
  external_file : String
  links : List ExternalLink
  reference_count : Nat
deriving DecidableEq, Repr

/-- Embeds `_extract_filename_from_path`: if the path contains a `\` or a
`/`, take the part after the last `\` and then after the last `/`;
otherwise return the path unchanged. -/
def extract_filename_from_path (file_path : String) : String :=
  if strContainsChar file_path '\\' || strContainsChar file_path '/' then
    (pySplitStr '/'
      ((pySplitStr '\\' file_path).getLastD file_path)).getLastD file_path
  else
    file_path

/-- Embeds the `list(set(...))` wrapping in
`_extract_external_files_from_formula`: a duplicate-free list with the same
elements (CPython's `set` iteration order is unspecified; `List.dedup`
picks a canonical duplicate-free list). -/
def pySetToList (xs : List String) : List String := xs.dedup

/-- Embeds `_extract_external_files_from_formula` with the
`re.findall(r'\[([^\]]+\.xlsx?m?)\]', formula, re.IGNORECASE)` step
abstracted as the list `regex_matches` of captured bracket contents: each match
goes through `_extract_filename_from_path`, then duplicates are removed by
`list(set(...))`. -/
def extract_external_files_from_formula (regex_matches : List String) : List String :=
  pySetToList (regex_matches.map extract_filename_from_path)

/-- Embeds `_is_duplicate_link`: true iff some existing link has the same
`(source_sheet, source_cell, target_file)` triple. -/
def is_duplicate_link (existing_links : List ExternalLink)
    (sheet cell target_file : String) : Bool :=
  existing_links.any fun link =>
    link.source_sheet = sheet && link.source_cell = cell &&
      link.target_file = target_file

/-- A formula-bearing cell as the scan loop in `scan_open_workbooks` reads
it: the worksheet name, the cell address, the formula text, and the list of
regex captures `re.findall` produces on that formula (abstracted, as in
`extract_external_files_from_formula`). -/
structure FCell where
  sheet : String
  address : String
  formula : String
  regex_matches : List String
deriving Repr

/-- Embeds the body of the formula-scanning loop of `scan_open_workbooks`
for one cell: for each file extracted from the formula, append a new
`Formula`-typed link unless `_is_duplicate_link` reports the
`(sheet, cell, target)` triple already present among the links collected
for this workbook. -/
def scan_cell (workbook_name : String) (acc : List ExternalLink) (c : FCell) :
    List ExternalLink :=
  (extract_external_files_from_formula c.regex_matches).foldl
    (fun acc ext_file =>
      if is_duplicate_link acc c.sheet c.address ext_file then acc
      else acc ++ [{ source_workbook := workbook_name, source_sheet := c.sheet,
                     source_cell := c.address, target_file := ext_file,
                     formula := c.formula, link_type := "Formula" }])
    acc

/-- Embeds "Method 1" of `scan_open_workbooks`: each entry of
`workbook.LinkSources(1)` becomes a `LinkSource`-typed link with empty
sheet and cell. -/
def link_source_links (workbook_name : String) (link_sources : List String) :
    List ExternalLink :=
  link_sources.map fun ls =>
    { source_workbook := workbook_name, source_sheet := "", source_cell := "",
      target_file := extract_filename_from_path ls,
      formula := "LinkSource: " ++ ls, link_type := "LinkSource" }

/-- One open workbook as `scan_open_workbooks` reads it: its name, the
result of `LinkSources(1)`, and the formula cells of its used ranges. -/
structure WbData where
  name : String
  link_sources : List String
  cells : List FCell
deriving Repr

/-- Embeds the per-workbook part of `scan_open_workbooks`: the
`workbook_links` list starts with the `LinkSources` entries and then the
formula-scanning loop folds over the cells. -/
def workbook_links (wb : WbData) : List ExternalLink :=
  wb.cells.foldl (scan_cell wb.name) (link_source_links wb.name wb.link_sources)

/-- The `(source_sheet, source_cell, target_file)` triple compared by
`_is_duplicate_link`. -/
def linkTriple (l : ExternalLink) : String × String × String :=
  (l.source_sheet, l.source_cell, l.target_file)

/-! ## Grouping (`_group_links_by_external_file`, `get_grouped_search_results`) -/

/-- Embeds one iteration of the `defaultdict(list)` grouping loop
(`file_groups[link.target_file].append(link)`): append the link to the
group keyed by its target file, creating the key at the end when absent
(CPython dicts keep insertion order, and keys are unique). -/
def insertGrouped (l : ExternalLink) :
    List (String × List ExternalLink) → List (String × List ExternalLink)
  | [] => [(l.target_file, [l])]
  | g :: gs =>
    if g.1 = l.target_file then (g.1, g.2 ++ [l]) :: gs
    else g :: insertGrouped l gs

/-- The whole `defaultdict(list)` grouping loop over a link list. -/
def groupPairs (links : List ExternalLink) : List (String × List ExternalLink) :=
  links.foldl (fun gs l => insertGrouped l gs) []

/-- Embeds `_group_links_by_external_file`: rebuild the grouped dictionary
from the given links, one `ExternalFileGroup` per target file with
`reference_count = len(links)`. -/
def group_links_by_external_file (links : List ExternalLink) :
    List (String × ExternalFileGroup) :=
  (groupPairs links).map fun g =>
    (g.1, { external_file := g.1, links := g.2, reference_count := g.2.length })

/-! ## Search (`search_links`, `get_grouped_search_results`) -/

/-- Embeds Python's `needle in hay` on strings: substring containment. -/
def strIn (needle hay : String) : Bool := decide (needle.data <:+: hay.data)

/-- Embeds the per-link `match` computation of `search_links`: compare the
lowercased keyword against the lowercased field selected by
`search_field`; any other field name leaves `match = False`. -/
def link_matches (keyword_lower search_field : String) (link : ExternalLink) :
    Bool :=
  if search_field = "external_file" then strIn keyword_lower link.target_file.toLower
  else if search_field = "formula" then strIn keyword_lower link.formula.toLower
  else if search_field = "source_workbook" then
    strIn keyword_lower link.source_workbook.toLower
  else if search_field = "all" then
    strIn keyword_lower link.target_file.toLower ||
    strIn keyword_lower link.formula.toLower ||
    strIn keyword_lower link.source_workbook.toLower
  else false

/-- Embeds `search_links`: an empty keyword returns the stored list
unchanged (`if not keyword: return self.external_links`); otherwise filter
by the selected field. -/
def search_links (external_links : List ExternalLink)
    (keyword : String) (search_field : String) : List ExternalLink :=
  if keyword = "" then external_links
  else external_links.filter (link_matches keyword.toLower search_field)

/-- Embeds `get_grouped_search_results`: run `search_links`, then the same
`defaultdict(list)` grouping loop as `_group_links_by_external_file`,
building fresh `ExternalFileGroup` objects. -/
def get_grouped_search_results (external_links : List ExternalLink)
    (keyword : String) (search_field : String) :
    List (String × ExternalFileGroup) :=
  (groupPairs (search_links external_links keyword search_field)).map fun g =>
    (g.1, { external_file := g.1, links := g.2, reference_count := g.2.length })

/-! ## Manager state and the scan (`scan_open_workbooks`) -/

/-- Embeds the statistics dictionary `scan_open_workbooks` returns. -/
structure ScanStats where
  total_workbooks : Nat
  workbooks_with_links : Nat
  total_links : Nat
  unique_external_files : Nat
deriving DecidableEq, Repr

/-- Embeds the mutable fields of `ExternalLinksManager`
(`self.external_links`, `self.grouped_links`). -/
structure ELMState where
  external_links : List ExternalLink
  grouped_links : List (String × ExternalFileGroup)

/-- The links collected by one call of `scan_open_workbooks`: the
concatenation of every workbook's `workbook_links` (the source appends
`workbook_links` to `self.external_links` only when non-empty, which
yields the same list). -/
def scan_links (wbs : List WbData) : List ExternalLink :=
  (wbs.map workbook_links).flatten

/-- Embeds the statistics computation of `scan_open_workbooks`:
`total_workbooks` counts iterations, `workbooks_with_links` is the size of
the set of names of workbooks contributing links, `total_links` is
`len(self.external_links)` and `unique_external_files` the size of the set
of target files of the recorded links. -/
def scan_statistics (wbs : List WbData) : ScanStats :=
  { total_workbooks := wbs.length
    workbooks_with_links :=
      ((wbs.filter fun w => !(workbook_links w).isEmpty).map WbData.name).dedup.length
    total_links := (scan_links wbs).length
    unique_external_files :=
      ((scan_links wbs).map ExternalLink.target_file).dedup.length }

/-- Embeds `scan_open_workbooks` as a state transformer: the method first
resets `self.external_links = []`, then collects links from the currently
open workbooks only, updates statistics, regroups, and returns the fresh
list with the statistics.  The previous state is discarded entirely. -/
def scan_open_workbooks (_st : ELMState) (wbs : List WbData) :
    ELMState × List ExternalLink × ScanStats :=
  let links := scan_links wbs
  ({ external_links := links, grouped_links := group_links_by_external_file links },
   links, scan_statistics wbs)

/-! ## Link updater: `excel_session_manager_link_updater.py` -/

/-- One open workbook as `check_and_update_links` reads it: its `FullName`
and the result of `LinkSources(xlExcelLinks)` (a list of linked file
paths). -/
structure OpenWorkbook where
  fullName : String
  links : List String
deriving DecidableEq, Repr

/-- Embeds `int(options.get("CHECK_DAYS", 14))`: the value stored under
`"CHECK_DAYS"`, defaulting to 14. -/
def run_check_days (options : String → Option Int) : Int :=
  (options "CHECK_DAYS").getD 14

/-- Embeds `threshold_date = datetime.now() - timedelta(days=CHECK_DAYS)`
on an integer (epoch-seconds) time scale: one day is 86400 seconds. -/
def threshold_date (now check_days : Int) : Int :=
  now - check_days * 86400

/-- Embeds `is_workbook_open`: true iff some open workbook's `FullName`
names the same file as `file_path` (`os.path.samefile`, abstracted as the
boolean relation `samefile`). -/
def is_workbook_open (open_workbooks : List OpenWorkbook)
    (samefile : String → String → Bool) (file_path : String) : Bool :=
  open_workbooks.any fun wb => samefile wb.fullName file_path

/-- Embeds the per-link decision of `check_and_update_links` collecting
`updated_links` for one workbook's link list: a link is kept iff
`get_last_modified_date` (the abstracted `mtime`, `none` when the file is
missing or unreadable) returns a time on or after the threshold and
`is_workbook_open` is false for it. -/
def link_needs_update (open_workbooks : List OpenWorkbook)
    (samefile : String → String → Bool) (mtime : String → Option Int)
    (threshold : Int) (link : String) : Bool :=
  match mtime link with
  | some last_modified =>
      decide (threshold ≤ last_modified) &&
        !is_workbook_open open_workbooks samefile link
  | none => false

def updated_links (open_workbooks : List OpenWorkbook)
    (samefile : String → String → Bool) (mtime : String → Option Int)
    (threshold : Int) (links : List String) : List String :=
  links.filter (link_needs_update open_workbooks samefile mtime threshold)

/-- Embeds the `workbook.UpdateLink(Name=link, ...)` invocations of one
run of `check_and_update_links`: for every open workbook, each entry of
its `updated_links` produces one call, recorded as the
`(workbook FullName, link)` pair. -/
def update_calls (open_workbooks : List OpenWorkbook)
    (samefile : String → String → Bool) (mtime : String → Option Int)
    (threshold : Int) : List (String × String) :=
  (open_workbooks.map fun wb =>
    (updated_links open_workbooks samefile mtime threshold wb.links).map
      fun link => (wb.fullName, link)).flatten

/-! ## Session manager: `core/session_manager.py` -/

/-- One entry of the `selected_workbooks` list handed to `save_session`:
the tuple `(name, path, sheet, cell)`. -/
structure WorkbookEntry where
  name : String
  path : String
  sheet : String
  cell : String
deriving DecidableEq, Repr

/-- Embeds `os.path.splitext`: split off the extension, the suffix
starting at the last dot of the base name provided that dot is not its
leading character. -/
def splitext (p : String) : String × String :=
  let base := (pySplitStr '/' ((pySplitStr '\\' p).getLastD p)).getLastD p
  let stem := String.mk (base.data.dropWhile fun c => c = '.')
  if strContainsChar stem '.' then
    let ext := "." ++ (pySplitStr '.' stem).getLastD ""
    (strDropRight p ext.data.length, ext)
  else (p, "")

/-- The header row `["File Path", "Sheet Name", "Cell Address"]` written by
`_save_session_impl`. -/
def session_header : List String := ["File Path", "Sheet Name", "Cell Address"]

/-- Embeds `_save_session_impl` (with the surrounding `save_session`
empty-list guard): `None` when the list is empty or the save dialog is
cancelled; otherwise the timestamped path together with the rows written
to the session sheet — the header row, then one `(path, sheet, cell)` row
per selected workbook in order. -/
def save_session (dialog_path : Option String) (timestamp : String)
    (selected_workbooks : List WorkbookEntry) :
    Option (String × List (List String)) :=
  if selected_workbooks.isEmpty then none
  else
    match dialog_path with
    | none => none
    | some file_path =>
        let be := splitext file_path
        let file_path_with_ts := be.1 ++ "_" ++ timestamp ++ be.2
        some (file_path_with_ts,
          session_header ::
            selected_workbooks.map fun w => [w.path, w.sheet, w.cell])

/-- Embeds the truthiness test Python applies to a cell value read by
`iter_rows(values_only=True)`: `None` and the empty string are falsy. -/
def cellTruthy : Option String → Bool
  | none => false
  | some s => !s.isEmpty

/-- The first column of a session row (`r[0]`), `none` for an empty row. -/
def rowFirst (r : List (Option String)) : Option String := r.headD none

/-- Embeds the guard `if r and r[0]` of the comprehension
`all_file_paths = [r[0] for r in rows if r and r[0]]`. -/
def rowTruthy (r : List (Option String)) : Bool :=
  !r.isEmpty && cellTruthy (rowFirst r)

/-- Embeds `all_file_paths = [r[0] for r in rows if r and r[0]]`. -/
def all_file_paths (rows : List (List (Option String))) : List String :=
  (rows.filter rowTruthy).map fun r => (rowFirst r).getD ""

/-- Embeds
`valid_file_paths = [path for path in all_file_paths if os.path.exists(path)]`
with the file system abstracted as the existence predicate `pexists`. -/
def valid_file_paths (pexists : String → Bool)
    (rows : List (List (Option String))) : List String :=
  (all_file_paths rows).filter pexists

/-- The row-level form of the `load_session` validation: the row is
non-empty, its first column is truthy, and the path it holds exists. -/
def row_kept (pexists : String → Bool) (r : List (Option String)) : Bool :=
  rowTruthy r && pexists ((rowFirst r).getD "")

/-- Embeds the outcome of the validation step of `load_session`: when no
path survives the filter the method shows a warning and returns without
opening anything (`none`); otherwise the surviving paths are offered for
selection (`some`). -/
def load_session_valid (pexists : String → Bool)
    (rows : List (List (Option String))) : Option (List String) :=
  if (valid_file_paths pexists rows).isEmpty then none
  else some (valid_file_paths pexists rows)

/-! ## Save retry: `core/excel_manager.py` -/

/-- The observable events of the save-retry block shared verbatim by
`_save_workbooks_impl` and `_save_and_close_impl`: a `wb.Save()` attempt
(by its 0-based `attempt` index), the `time.sleep(0.1)` between failed
attempts, and the final `raise e`. -/
inductive SaveEvent where
  | attemptSave (i : Nat)
  | sleep
  | raised
deriving DecidableEq, Repr

/-- Embeds the retry loop
`for attempt in range(max_retries): try: wb.Save(); break except: ...`
with `outcome i` telling whether the i-th `wb.Save()` call succeeds.
`fuel` is the number of attempts the loop may still make; the loop starts
with `fuel = max_retries`.  Returns the event trace and whether the save
succeeded (`false` means the last exception was re-raised). -/
def save_retry_go (outcome : Nat → Bool) (i : Nat) :
    Nat → List SaveEvent × Bool
  | 0 => ([], true)
  | fuel + 1 =>
    if outcome i then ([SaveEvent.attemptSave i], true)
    else if fuel = 0 then ([SaveEvent.attemptSave i, SaveEvent.raised], false)
    else
      let rest := save_retry_go outcome (i + 1) fuel
      (SaveEvent.attemptSave i :: SaveEvent.sleep :: rest.1, rest.2)

/-- The retry block as both save paths run it: `max_retries = 3`, starting
at attempt 0. -/
def save_with_retry (outcome : Nat → Bool) : List SaveEvent × Bool :=
  save_retry_go outcome 0 3

/-- Embeds the workbook lookup of `_save_workbooks_impl` and
`_save_and_close_impl`: iterate `excel.Workbooks` and take the first whose
`Name` equals the selected name exactly. -/
def find_workbook (open_names : List String) (name : String) : Option String :=
  open_names.find? fun wb_name => wb_name = name

/-- Embeds the per-workbook step of `_save_workbooks_impl`: when the name
matches an open workbook, run the retry block; otherwise no save is
attempted (`none`, the "not found in open workbooks" message). -/
def save_workbook_step (open_names : List String) (name : String)
    (outcome : Nat → Bool) : Option (List SaveEvent × Bool) :=
  (find_workbook open_names name).map fun _ => save_with_retry outcome

/-- Embeds the per-workbook step of `_save_and_close_impl`: identical
retry discipline; `wb.Close(SaveChanges=False)` runs only after the retry
block succeeds, which does not alter the retry trace. -/
def save_and_close_step (open_names : List String) (name : String)
    (outcome : Nat → Bool) : Option (List SaveEvent × Bool) :=
  (find_workbook open_names name).map fun _ => save_with_retry outcome

/-! ## Performance monitor: `core/performance_monitor.py` -/

/-- Embeds the `PerformanceMetric` dataclass (the float `value` and the
timestamp are modelled on an integer scale; only the record's presence in
the bounded buffer matters to the claims). -/
structure PerformanceMetric where
  name : String
  value : Int
  unit : String
  timestamp : Int
  category : String
deriving DecidableEq, Repr

/-- Embeds the `OperationTiming` dataclass. -/
structure OperationTiming where
  operation : String
  start_time : Int
  end_time : Option Int
  duration : Option Int
  success : Bool
  context : List (String × Int)
deriving DecidableEq, Repr

/-- Embeds `collections.deque(maxlen=cap).append(x)`: keep the newest
`cap` elements, evicting from the left. -/
def pushCap (cap : Nat) (l : List α) (x : α) : List α :=
  (l ++ [x]).drop ((l ++ [x]).length - cap)

/-- Embeds a Python dict assignment `d[k] = v` on an insertion-ordered
association list: replace the value when the key is present, else append
the key at the end. -/
def dictInsert (d : List (String × α)) (k : String) (v : α) :
    List (String × α) :=
  if d.any fun p => p.1 = k then
    d.map fun p => if p.1 = k then (k, v) else p
  else d ++ [(k, v)]

/-- Embeds the mutable buffers of `PerformanceMonitor.__init__`:
`metrics_history` and `operation_timings` are `deque(maxlen=max_history)`,
the three `system_metrics` buffers are `deque(maxlen=100)`, and
`active_operations` is a plain dict. -/
structure PMonState where
  max_history : Nat
  metrics_history : List PerformanceMetric
  operation_timings : List OperationTiming
  active_operations : List (String × OperationTiming)
  sys_cpu : List Int
  sys_mem : List Int
  sys_disk : List Int
deriving Repr

/-- The state of `PerformanceMonitor(max_history)` right after `__init__`:
all buffers empty (the source default is `max_history = 1000`). -/
def pmInit (max_history : Nat) : PMonState :=
  { max_history := max_history, metrics_history := [], operation_timings := [],
    active_operations := [], sys_cpu := [], sys_mem := [], sys_disk := [] }

/-- Embeds `record_metric`: append the metric to `metrics_history`. -/
def record_metric (st : PMonState) (name : String) (value : Int)
    (unit : String) (category : String) (timestamp : Int) : PMonState :=
  { st with metrics_history := (pushCap st.max_history st.metrics_history
      (PerformanceMetric.mk name value unit timestamp category)) }

/-- Embeds `start_operation`: store a fresh `OperationTiming` under the
generated operation id in `active_operations`. -/
def start_operation (st : PMonState) (operation_id : String)
    (operation : String) (now : Int) (context : List (String × Int)) :
    PMonState :=
  { st with active_operations := (dictInsert st.active_operations operation_id
      (OperationTiming.mk operation now none none true context)) }

/-- Embeds `end_operation`: when the id is active, remove it, complete the
timing, append it to `operation_timings` and record the duration metric;
an unknown id is ignored. -/
def end_operation (st : PMonState) (operation_id : String) (now : Int)
    (success : Bool) : PMonState :=
  match (st.active_operations.find? fun p => p.1 = operation_id) with
  | none => st
  | some p =>
      let timing := { p.2 with end_time := some now, duration := some (now - p.2.start_time), success := success }
      let st1 := { st with
        active_operations :=
          (st.active_operations.filter fun q => !(q.1 = operation_id)),
        operation_timings :=
          (pushCap st.max_history st.operation_timings timing) }
      record_metric st1 ("operation_" ++ timing.operation)
        (now - p.2.start_time) "seconds" "operations" now

/-- Embeds one pass of `_background_monitor`: append the sampled cpu,
memory and disk values to the three `deque(maxlen=100)` buffers and record
them as metrics. -/
def sys_sample (st : PMonState) (cpu mem disk : Int) (timestamp : Int) :
    PMonState :=
  let st1 := { st with
    sys_cpu := pushCap 100 st.sys_cpu cpu,
    sys_mem := pushCap 100 st.sys_mem mem,
    sys_disk := pushCap 100 st.sys_disk disk }
  let st2 := record_metric st1 "cpu_usage" cpu "percent" "system" timestamp
  let st3 := record_metric st2 "memory_usage" mem "percent" "system" timestamp
  record_metric st3 "disk_usage" disk "percent" "system" timestamp

/-- The monitor calls the claims quantify over. -/
inductive PMOp where
  | record (name : String) (value : Int) (unit : String) (category : String)
      (timestamp : Int)
  | startOp (operation_id operation : String) (now : Int)
      (context : List (String × Int))
  | endOp (operation_id : String) (now : Int) (success : Bool)
  | sysSample (cpu mem disk timestamp : Int)

/-- Dispatch one monitor call. -/
def pmStep (st : PMonState) : PMOp → PMonState
  | PMOp.record name value unit category ts =>
      record_metric st name value unit category ts
  | PMOp.startOp oid op now ctx => start_operation st oid op now ctx
  | PMOp.endOp oid now ok => end_operation st oid now ok
  | PMOp.sysSample cpu mem disk ts => sys_sample st cpu mem disk ts

/-- Run a sequence of monitor calls from a state. -/
def pmRun (st : PMonState) (ops : List PMOp) : PMonState :=
  ops.foldl pmStep st

/-! ## File utilities: `utils/file_utils.py` -/

/-- The decimal digit characters of a natural number, most significant
first — the characters Python's `str(n)` / `f"{n}"` produces for a
non-negative int. -/
def natChars (n : Nat) : List Char :=
  if h : n < 10 then [Char.ofNat (48 + n)]
  else natChars (n / 10) ++ [Char.ofNat (48 + n % 10)]
termination_by n
decreasing_by
  exact Nat.div_lt_self (by omega) (by omega)

/-- Embeds the `f"{x:02d}"` formatting of `get_file_mtime_str` for the
(non-negative) date components: pad to two digits with a leading zero. -/
def pad2 (n : Nat) : List Char :=
  if n < 10 then '0' :: natChars n else natChars n

/-- The date half of the string built by `get_file_mtime_str`:
`f"{dt.year}-{dt.month:02d}-{dt.day:02d}"`. -/
def mtimeDateChars (year month day : Nat) : List Char :=
  natChars year ++ '-' :: (pad2 month ++ '-' :: pad2 day)

/-- The time half of the string built by `get_file_mtime_str`:
`f"{dt.hour:02d}:{dt.minute:02d}:{dt.second:02d}"`. -/
def mtimeTimeChars (hour minute second : Nat) : List Char :=
  pad2 hour ++ ':' :: (pad2 minute ++ ':' :: pad2 second)

/-- The broken-down local time `datetime.fromtimestamp` yields for a
file's modification time: the fields `get_file_mtime_str` reads. -/
structure FileTime where
  year : Nat
  month : Nat
  day : Nat
  hour : Nat
  minute : Nat
  second : Nat
deriving DecidableEq, Repr

/-- Embeds `get_file_mtime_str`: when the file exists, format its
modification time as `f"{year}-{month:02d}-{day:02d} {hour:02d}:{minute:02d}:{second:02d}"`;
otherwise return the empty string.  The file system is abstracted as
`fsys`, mapping a path to the broken-down mtime of an existing file. -/
def get_file_mtime_str (fsys : String → Option FileTime) (path : String) :
    String :=
  match fsys path with
  | some t =>
      String.mk (mtimeDateChars t.year t.month t.day ++
        ' ' :: mtimeTimeChars t.hour t.minute t.second)
  | none => ""

/-- Remove surrounding whitespace, as Python's `int(str)` does before
parsing. -/
def trimWsChars (cs : List Char) : List Char :=
  ((cs.dropWhile Char.isWhitespace).reverse.dropWhile Char.isWhitespace).reverse

/-- Numeric value of a list of decimal digit characters. -/
def digitsVal (ds : List Char) : Nat :=
  ds.foldl (fun n c => 10 * n + (c.toNat - 48)) 0

/-- Embeds Python's `int(str)` on the strings `parse_mtime` feeds it: an
optional sign followed by one or more decimal digits, surrounding
whitespace ignored; anything else raises `ValueError` (`none`). -/
def pyInt (cs : List Char) : Option Int :=
  match trimWsChars cs with
  | '-' :: ds =>
      if !ds.isEmpty && ds.all Char.isDigit then some (-(digitsVal ds : Int))
      else none
  | '+' :: ds =>
      if !ds.isEmpty && ds.all Char.isDigit then some (digitsVal ds : Int)
      else none
  | ds =>
      if !ds.isEmpty && ds.all Char.isDigit then some (digitsVal ds : Int)
      else none

/-- Gregorian leap-year test, as `datetime` validates the day. -/
def isLeapYear (y : Nat) : Bool :=
  (y % 4 = 0 && !(y % 100 = 0)) || y % 400 = 0

/-- Days in a month, as `datetime` validates the day. -/
def daysInMonth (y m : Nat) : Nat :=
  if m = 2 then (if isLeapYear y then 29 else 28)
  else if m = 4 ∨ m = 6 ∨ m = 9 ∨ m = 11 then 30
  else 31

/-- Embeds the `datetime(year, month, day, hour, minute)` construction at
the end of `parse_mtime`: `ValueError` (hence `None` through the bare
`except`) unless every field is in range. -/
def mk_datetime (y mo d h mi : Int) : Option (Int × Int × Int × Int × Int) :=
  if 1 ≤ y ∧ y ≤ 9999 ∧ 1 ≤ mo ∧ mo ≤ 12 ∧ 1 ≤ d ∧
      d ≤ (daysInMonth y.toNat mo.toNat : Int) ∧
      0 ≤ h ∧ h < 24 ∧ 0 ≤ mi ∧ mi < 60 then
    some (y, mo, d, h, mi)
  else none

/-- Embeds `day, month, year = map(int, date.split('/'))` of `parse_mtime`:
the date token must split into exactly three `int()`-parseable fields
(anything else raises, hence `None` through the bare `except`). -/
def parse_date_part (date : List Char) : Option (Int × Int × Int) :=
  match pySplitChar '/' date with
  | [dStr, moStr, yStr] =>
      (pyInt dStr).bind fun d =>
        (pyInt moStr).bind fun mo =>
          (pyInt yStr).bind fun y => some (d, mo, y)
  | _ => none

/-- Embeds `hour, minute = map(int, time_part.split(':'))` of
`parse_mtime`: exactly two `int()`-parseable fields. -/
def parse_time_part (time_part : List Char) : Option (Int × Int) :=
  match pySplitChar ':' time_part with
  | [hStr, miStr] =>
      (pyInt hStr).bind fun h => (pyInt miStr).bind fun mi => some (h, mi)
  | _ => none

/-- Embeds `parse_mtime` on the character list of its argument: split on
whitespace into `parts`, take `parts[0]` and `parts[1]` (IndexError when
fewer than two → `None`), parse the date and time tokens, and build the
`datetime`; every exception is swallowed into `None`. -/
def parse_mtime_chars (cs : List Char) : Option (Int × Int × Int × Int × Int) :=
  match pySplitWhitespace cs with
  | date :: time_part :: _ =>
      (parse_date_part date).bind fun dmy =>
        (parse_time_part time_part).bind fun hm =>
          mk_datetime dmy.2.2 dmy.2.1 dmy.1 hm.1 hm.2
  | _ => none

/-- Embeds `parse_mtime`. -/
def parse_mtime (mtime_str : String) : Option (Int × Int × Int × Int × Int) :=
  parse_mtime_chars mtime_str.data

/-! ## Theorems -/

/-- C10: `search_links` edge cases — an empty keyword returns the stored
list unchanged regardless of `search_field`, and a non-empty keyword with
a `search_field` outside `{'external_file', 'formula', 'source_workbook',
'all'}` returns the empty list (no exception, no fallback field). -/
theorem search_links_edge_cases (links : List ExternalLink)
    (keyword search_field : String) (hkw : keyword ≠ "")
    (hf1 : search_field ≠ "external_file") (hf2 : search_field ≠ "formula")
    (hf3 : search_field ≠ "source_workbook") (hf4 : search_field ≠ "all") :
    (∀ field : String, search_links links "" field = links) ∧
    search_links links keyword search_field = [] := by
  constructor
  · intro field
    simp [search_links]
  · rw [search_links, if_neg hkw]
    apply List.filter_eq_nil_iff.mpr
    intro a _
    simp [link_matches, hf1, hf2, hf3, hf4]

/-- Witness for C10 at a concrete link list: the empty keyword returns the
list unchanged both for the recognised field `external_file` and for the
unknown field `bogus`, and a non-empty keyword with the unknown field
returns `[]`. -/
theorem search_links_edge_cases_witness :
    search_links [ExternalLink.mk "Book1.xlsx" "Sheet1" "$A$1" "T.xlsx"
        "=[T.xlsx]Sheet1!A1" "Formula"] "" "external_file" =
      [ExternalLink.mk "Book1.xlsx" "Sheet1" "$A$1" "T.xlsx"
        "=[T.xlsx]Sheet1!A1" "Formula"] ∧
    search_links [ExternalLink.mk "Book1.xlsx" "Sheet1" "$A$1" "T.xlsx"
        "=[T.xlsx]Sheet1!A1" "Formula"] "" "bogus" =
      [ExternalLink.mk "Book1.xlsx" "Sheet1" "$A$1" "T.xlsx"
        "=[T.xlsx]Sheet1!A1" "Formula"] ∧
    search_links [ExternalLink.mk "Book1.xlsx" "Sheet1" "$A$1" "T.xlsx"
        "=[T.xlsx]Sheet1!A1" "Formula"] "t" "bogus" = [] :=
  have h := search_links_edge_cases
    [ExternalLink.mk "Book1.xlsx" "Sheet1" "$A$1" "T.xlsx"
      "=[T.xlsx]Sheet1!A1" "Formula"] "t" "bogus" (by decide) (by decide)
    (by decide) (by decide) (by decide)
  ⟨h.1 "external_file", h.1 "bogus", h.2⟩

/-- C4: `save_session` writes one header row followed by one
`(path, sheet, cell)` row per selected workbook, in order, and returns the
saved (timestamped) path on success, `None` when the dialog is cancelled
or the selection is empty. -/
theorem save_session_spec (dialog_path : Option String) (timestamp : String)
    (selected_workbooks : List WorkbookEntry) :
    (selected_workbooks = [] →
      save_session dialog_path timestamp selected_workbooks = none) ∧
    (dialog_path = none →
      save_session dialog_path timestamp selected_workbooks = none) ∧
    (∀ fp, dialog_path = some fp → selected_workbooks ≠ [] →
      save_session dialog_path timestamp selected_workbooks =
        some ((splitext fp).1 ++ "_" ++ timestamp ++ (splitext fp).2,
          session_header ::
            selected_workbooks.map fun w => [w.path, w.sheet, w.cell])) := by
  refine ⟨fun h => ?_, fun h => ?_, fun fp hfp hne => ?_⟩
  · simp [save_session, h]
  · simp [save_session, h]
  · simp [save_session, hfp, hne]

/-- Witness for C4: one selected workbook, dialog accepted. -/
theorem save_session_spec_witness :
    save_session (some "sess.xlsx") "2024-01-02_03-04-05"
        [WorkbookEntry.mk "Book1.xlsx" "C:\\w\\Book1.xlsx" "Sheet1" "$B$2"] =
      some ("sess_2024-01-02_03-04-05.xlsx",
        [["File Path", "Sheet Name", "Cell Address"],
         ["C:\\w\\Book1.xlsx", "Sheet1", "$B$2"]]) := by
  have h := (save_session_spec (some "sess.xlsx") "2024-01-02_03-04-05"
    [WorkbookEntry.mk "Book1.xlsx" "C:\\w\\Book1.xlsx" "Sheet1" "$B$2"]).2.2
    "sess.xlsx" rfl (by decide)
  rw [h]
  decide

/-- C5: the only validation `load_session` applies to session rows is path
existence — the surviving paths are exactly the first columns of the rows
whose first column is truthy and exists, and when none survives the load
aborts (`none`), otherwise the surviving paths go forward. -/
theorem load_session_validation (pexists : String → Bool)
    (rows : List (List (Option String))) :
    valid_file_paths pexists rows =
      ((rows.filter (row_kept pexists)).map fun r => (rowFirst r).getD "") ∧
    (valid_file_paths pexists rows = [] →
      load_session_valid pexists rows = none) ∧
    (valid_file_paths pexists rows ≠ [] →
      load_session_valid pexists rows =
        some (valid_file_paths pexists rows)) := by
  refine ⟨?_, fun h => ?_, fun h => ?_⟩
  · rw [valid_file_paths, all_file_paths]
    rw [List.filter_map]
    rw [List.filter_filter]
    apply congrArg
    apply List.filter_congr
    intro r _
    simp [row_kept, Function.comp, Bool.and_comm]
  · simp [load_session_valid, h]
  · simp [load_session_valid, List.isEmpty_iff, h]

/-- Witness for C5: one existing row, one missing path, one blank row. -/
theorem load_session_validation_witness :
    valid_file_paths (fun p => p = "C:\\a.xlsx")
        [[some "C:\\a.xlsx", some "S", some "A1"],
         [some "C:\\gone.xlsx", some "S", some "A1"],
         [none, none, none]] = ["C:\\a.xlsx"] ∧
    load_session_valid (fun p => p = "C:\\a.xlsx")
        [[some "C:\\a.xlsx", some "S", some "A1"],
         [some "C:\\gone.xlsx", some "S", some "A1"],
         [none, none, none]] = some ["C:\\a.xlsx"] := by
  have h := load_session_validation (fun p => p = "C:\\a.xlsx")
    [[some "C:\\a.xlsx", some "S", some "A1"],
     [some "C:\\gone.xlsx", some "S", some "A1"],
     [none, none, none]]
  exact ⟨by decide, by rw [h.2.2 (by decide)]; decide⟩

/-- C7: `scan_open_workbooks` discards the previous scan entirely — its
result (fresh state, returned link list, statistics) is a function of the
currently open workbooks only, the returned list is exactly the links
collected in this call, and the stored list is reset to that same list. -/
theorem scan_discards_previous (st1 st2 : ELMState) (wbs : List WbData) :
    scan_open_workbooks st1 wbs = scan_open_workbooks st2 wbs ∧
    (scan_open_workbooks st1 wbs).2.1 = scan_links wbs ∧
    (scan_open_workbooks st1 wbs).1.external_links = scan_links wbs ∧
    (scan_open_workbooks st1 wbs).2.2 = scan_statistics wbs :=
  ⟨rfl, rfl, rfl, rfl⟩

/-- C6: the save discipline — the workbook is located by exact name match,
`Save` is attempted at most 3 times with a sleep between failed attempts,
the loop stops at the first success, the exception is re-raised only after
the third failure, and save-and-close runs the identical retry block.  The
retry trace is fully determined by the first three attempt outcomes. -/
theorem save_retry_discipline (outcome : Nat → Bool) (open_names : List String)
    (name : String) :
    save_with_retry outcome =
      (if outcome 0 then ([SaveEvent.attemptSave 0], true)
       else if outcome 1 then
         ([SaveEvent.attemptSave 0, SaveEvent.sleep, SaveEvent.attemptSave 1],
          true)
       else if outcome 2 then
         ([SaveEvent.attemptSave 0, SaveEvent.sleep, SaveEvent.attemptSave 1,
           SaveEvent.sleep, SaveEvent.attemptSave 2], true)
       else
         ([SaveEvent.attemptSave 0, SaveEvent.sleep, SaveEvent.attemptSave 1,
           SaveEvent.sleep, SaveEvent.attemptSave 2, SaveEvent.raised],
          false)) ∧
    (find_workbook open_names name = some name ↔ name ∈ open_names) ∧
    (find_workbook open_names name = none ↔ name ∉ open_names) ∧
    save_and_close_step open_names name outcome =
      save_workbook_step open_names name outcome := by
  have hfind : find_workbook open_names name = some name ↔ name ∈ open_names := by
    rw [find_workbook]
    induction open_names with
    | nil => simp
    | cons a l ih =>
      rw [List.find?_cons]
      by_cases ha : a = name
      · subst ha
        simp
      · simp only [ha, decide_False, List.mem_cons]
        rw [ih]
        exact ⟨Or.inr, fun h => h.elim (fun h1 => absurd h1.symm ha) id⟩
  have hnone : find_workbook open_names name = none ↔ name ∉ open_names := by
    rw [find_workbook, List.find?_eq_none]
    constructor
    · intro h hmem
      exact (by simpa using h name hmem)
    · intro h x hx
      simp only [decide_eq_true_eq]
      rintro rfl
      exact h hx
  refine ⟨?_, hfind, hnone, rfl⟩
  rcases h0 : outcome 0 <;> rcases h1 : outcome 1 <;> rcases h2 : outcome 2 <;>
    simp [save_with_retry, save_retry_go, h0, h1, h2]

/-- Witness for C6: two open workbooks, a save that succeeds on the second
attempt. -/
theorem save_retry_discipline_witness :
    save_with_retry (fun i => i = 1) =
      ([SaveEvent.attemptSave 0, SaveEvent.sleep, SaveEvent.attemptSave 1],
       true) ∧
    find_workbook ["Book1.xlsx", "Book2.xlsx"] "Book2.xlsx" =
      some "Book2.xlsx" := by
  have h := save_retry_discipline (fun i => i = 1)
    ["Book1.xlsx", "Book2.xlsx"] "Book2.xlsx"
  exact ⟨by rw [h.1]; decide, h.2.1.mpr (by decide)⟩

/-- The relation preserved by the duplicate check of the scan loop: a link
appended later never repeats the triple of an earlier link, provided the
later link came from the formula scan. -/
def FreshTriple (a b : ExternalLink) : Prop :=
  b.link_type = "Formula" → linkTriple a ≠ linkTriple b

theorem is_duplicate_link_false {acc : List ExternalLink} {sheet cell tf : String}
    (h : is_duplicate_link acc sheet cell tf = false) :
    ∀ a ∈ acc, linkTriple a ≠ (sheet, cell, tf) := by
  intro a ha heq
  rw [is_duplicate_link] at h
  have := List.any_eq_false.mp h a ha
  rcases Prod.mk.injEq .. ▸ heq with h1
  simp [linkTriple, Prod.ext_iff] at h1
  simp [h1.1, h1.2.1, h1.2.2] at this

theorem scan_cell_pairwise (wbName : String) (c : FCell)
    (acc : List ExternalLink) (h : acc.Pairwise FreshTriple) :
    (scan_cell wbName acc c).Pairwise FreshTriple := by
  rw [scan_cell]
  generalize extract_external_files_from_formula c.regex_matches = fs
  induction fs generalizing acc with
  | nil => exact h
  | cons f fs ih =>
    simp only [List.foldl_cons]
    apply ih
    rcases hd : is_duplicate_link acc c.sheet c.address f with _ | _
    · rw [if_neg (by simp [hd])]
      rw [List.pairwise_append]
      refine ⟨h, List.pairwise_singleton _ _, ?_⟩
      intro a ha b hb
      simp only [List.mem_singleton] at hb
      subst hb
      intro _
      exact is_duplicate_link_false hd a ha
    · rw [if_pos (by simp [hd])]
      exact h

theorem link_source_links_pairwise (wbName : String) (ls : List String) :
    (link_source_links wbName ls).Pairwise FreshTriple := by
  apply List.Pairwise.imp_of_mem (R := fun _ _ => True)
  · intro a b _ hb _
    intro hbf
    rw [link_source_links] at hb
    rcases List.mem_map.mp hb with ⟨s, _, hs⟩
    rw [← hs] at hbf
    simp at hbf
  · exact List.pairwise_of_forall (fun _ _ => trivial)

/-- C2: the scan deduplicates — among the `Formula`-typed links collected
for one workbook no two share the `(source_sheet, source_cell,
target_file)` triple, and the file list a single formula yields contains
no duplicates. -/
theorem scan_deduplicates (wb : WbData) :
    ((workbook_links wb).filter fun l =>
        l.link_type = "Formula").Pairwise
      (fun a b => linkTriple a ≠ linkTriple b) ∧
    ∀ regex_matches : List String,
      (extract_external_files_from_formula regex_matches).Nodup := by
  constructor
  · have hall : (workbook_links wb).Pairwise FreshTriple := by
      rw [workbook_links]
      generalize link_source_links wb.name wb.link_sources = init,
        link_source_links_pairwise wb.name wb.link_sources = hinit
      induction wb.cells generalizing init with
      | nil => exact hinit
      | cons c cs ih =>
        simp only [List.foldl_cons]
        exact ih _ (scan_cell_pairwise wb.name c init hinit)
    have hfil := hall.filter (fun l => decide (l.link_type = "Formula"))
    apply List.Pairwise.imp_of_mem ?_ hfil
    intro a b _ hb hR
    have hbf : b.link_type = "Formula" := by
      have := List.of_mem_filter hb
      simpa using this
    exact hR hbf
  · intro ms
    exact List.nodup_dedup _

theorem insertGrouped_sound (l : ExternalLink)
    (gs : List (String × List ExternalLink))
    (h : ∀ p ∈ gs, ∀ x ∈ p.2, x.target_file = p.1) :
    ∀ p ∈ insertGrouped l gs, ∀ x ∈ p.2, x.target_file = p.1 := by
  induction gs with
  | nil =>
    intro p hp x hx
    simp only [insertGrouped, List.mem_singleton] at hp
    subst hp
    simp only [List.mem_singleton] at hx
    subst hx
    rfl
  | cons g gs ih =>
    intro p hp x hx
    rw [insertGrouped] at hp
    by_cases hg : g.1 = l.target_file
    · rw [if_pos hg] at hp
      rcases List.mem_cons.mp hp with hp | hp
      · subst hp
        rcases List.mem_append.mp hx with hx | hx
        · exact h g (List.mem_cons_self _ _) x hx
        · simp only [List.mem_singleton] at hx
          subst hx
          exact hg.symm
      · exact h p (List.mem_cons_of_mem _ hp) x hx
    · rw [if_neg hg] at hp
      rcases List.mem_cons.mp hp with hp | hp
      · subst hp
        exact h p (List.mem_cons_self _ _) x hx
      · exact ih (fun q hq => h q (List.mem_cons_of_mem _ hq)) p hp x hx

theorem insertGrouped_flatten_perm (l : ExternalLink)
    (gs : List (String × List ExternalLink)) :
    List.Perm ((insertGrouped l gs).map Prod.snd).flatten
      ((gs.map Prod.snd).flatten ++ [l]) := by
  induction gs with
  | nil => simp [insertGrouped]
  | cons g gs ih =>
    rw [insertGrouped]
    by_cases hg : g.1 = l.target_file
    · rw [if_pos hg]
      simp only [List.map_cons, List.flatten_cons]
      have h1 : (g.2 ++ [l]) ++ (gs.map Prod.snd).flatten =
          g.2 ++ ([l] ++ (gs.map Prod.snd).flatten) := by
        rw [List.append_assoc]
      have h2 : List.Perm (g.2 ++ ([l] ++ (gs.map Prod.snd).flatten))
          (g.2 ++ ((gs.map Prod.snd).flatten ++ [l])) :=
        List.Perm.append_left g.2 List.perm_append_comm
      have h3 : g.2 ++ ((gs.map Prod.snd).flatten ++ [l]) =
          (g.2 ++ (gs.map Prod.snd).flatten) ++ [l] := by
        rw [List.append_assoc]
      rw [h1, ← h3]
      exact h2
    · rw [if_neg hg]
      simp only [List.map_cons, List.flatten_cons]
      have h2 : List.Perm (g.2 ++ ((insertGrouped l gs).map Prod.snd).flatten)
          (g.2 ++ ((gs.map Prod.snd).flatten ++ [l])) :=
        List.Perm.append_left g.2 ih
      have h3 : g.2 ++ ((gs.map Prod.snd).flatten ++ [l]) =
          (g.2 ++ (gs.map Prod.snd).flatten) ++ [l] := by
        rw [List.append_assoc]
      rw [← h3]
      exact h2

theorem groupPairs_fold_perm (links : List ExternalLink)
    (acc : List (String × List ExternalLink)) :
    List.Perm
      ((links.foldl (fun gs l => insertGrouped l gs) acc).map Prod.snd).flatten
      ((acc.map Prod.snd).flatten ++ links) := by
  induction links generalizing acc with
  | nil => simp
  | cons l ls ih =>
    simp only [List.foldl_cons]
    have h1 := ih (insertGrouped l acc)
    have h2 : List.Perm (((insertGrouped l acc).map Prod.snd).flatten ++ ls)
        (((acc.map Prod.snd).flatten ++ [l]) ++ ls) :=
      List.Perm.append_right ls (insertGrouped_flatten_perm l acc)
    have h3 : ((acc.map Prod.snd).flatten ++ [l]) ++ ls =
        (acc.map Prod.snd).flatten ++ (l :: ls) := by
      rw [List.append_assoc]
      rfl
    rw [h3] at h2
    exact h1.trans h2

theorem groupPairs_perm (links : List ExternalLink) :
    List.Perm ((groupPairs links).map Prod.snd).flatten links := by
  have h := groupPairs_fold_perm links []
  simpa [groupPairs] using h

theorem groupPairs_sound (links : List ExternalLink) :
    ∀ p ∈ groupPairs links, ∀ x ∈ p.2, x.target_file = p.1 := by
  rw [groupPairs]
  generalize hacc : ([] : List (String × List ExternalLink)) = acc
  have hsound : ∀ p ∈ acc, ∀ x ∈ p.2, x.target_file = p.1 := by
    subst hacc
    simp
  clear hacc
  induction links generalizing acc with
  | nil => exact hsound
  | cons l ls ih =>
    simp only [List.foldl_cons]
    exact ih _ (insertGrouped_sound l acc hsound)

/-- C3: grouping is a faithful partition — every link lands in the group
of its own target file, `reference_count` is the group size, the groups
together are a permutation of the grouped list, the same holds for grouped
search results over the search hits, and the grouped state after a scan is
rebuilt from the fresh links alone (independent of any previous state). -/
theorem grouping_partition (links : List ExternalLink)
    (keyword search_field : String) (st : ELMState) (wbs : List WbData) :
    (∀ p ∈ group_links_by_external_file links,
      p.2.external_file = p.1 ∧ p.2.reference_count = p.2.links.length ∧
        ∀ x ∈ p.2.links, x.target_file = p.1) ∧
    List.Perm
      ((group_links_by_external_file links).map fun p => p.2.links).flatten
      links ∧
    (∀ p ∈ get_grouped_search_results links keyword search_field,
      p.2.external_file = p.1 ∧ p.2.reference_count = p.2.links.length ∧
        ∀ x ∈ p.2.links, x.target_file = p.1) ∧
    List.Perm
      ((get_grouped_search_results links keyword search_field).map
        fun p => p.2.links).flatten
      (search_links links keyword search_field) ∧
    (scan_open_workbooks st wbs).1.grouped_links =
      group_links_by_external_file (scan_links wbs) := by
  have hmk : ∀ ls : List ExternalLink, ∀ p ∈ (groupPairs ls).map
      (fun g => (g.1, ExternalFileGroup.mk g.1 g.2 g.2.length)),
      p.2.external_file = p.1 ∧ p.2.reference_count = p.2.links.length ∧
        ∀ x ∈ p.2.links, x.target_file = p.1 := by
    intro ls p hp
    rcases List.mem_map.mp hp with ⟨g, hg, hgp⟩
    subst hgp
    exact ⟨rfl, rfl, groupPairs_sound ls g hg⟩
  have hflat : ∀ ls : List ExternalLink,
      List.Perm
        ((((groupPairs ls).map (fun g =>
            (g.1, ExternalFileGroup.mk g.1 g.2 g.2.length))).map
          fun p => p.2.links).flatten) ls := by
    intro ls
    have : (((groupPairs ls).map (fun g =>
        (g.1, ExternalFileGroup.mk g.1 g.2 g.2.length))).map
          fun p => p.2.links) = (groupPairs ls).map Prod.snd := by
      rw [List.map_map]
      rfl
    rw [this]
    exact groupPairs_perm ls
  exact ⟨hmk links, hflat links,
    hmk (search_links links keyword search_field),
    hflat (search_links links keyword search_field), rfl⟩

/-- Witness for C3: three concrete links, two sharing a target file — the
first group is exactly that target's group with `reference_count = 2`. -/
theorem grouping_partition_witness :
    (ExternalFileGroup.mk "A.xlsx"
      [ExternalLink.mk "wb" "s" "c1" "A.xlsx" "f1" "Formula",
       ExternalLink.mk "wb" "s" "c3" "A.xlsx" "f3" "Formula"] 2).external_file =
        "A.xlsx" ∧
    (ExternalFileGroup.mk "A.xlsx"
      [ExternalLink.mk "wb" "s" "c1" "A.xlsx" "f1" "Formula",
       ExternalLink.mk "wb" "s" "c3" "A.xlsx" "f3" "Formula"] 2).reference_count =
      (ExternalFileGroup.mk "A.xlsx"
        [ExternalLink.mk "wb" "s" "c1" "A.xlsx" "f1" "Formula",
         ExternalLink.mk "wb" "s" "c3" "A.xlsx" "f3" "Formula"] 2).links.length ∧
    ∀ x ∈ (ExternalFileGroup.mk "A.xlsx"
      [ExternalLink.mk "wb" "s" "c1" "A.xlsx" "f1" "Formula",
       ExternalLink.mk "wb" "s" "c3" "A.xlsx" "f3" "Formula"] 2).links,
      x.target_file = "A.xlsx" :=
  (grouping_partition
    [ExternalLink.mk "wb" "s" "c1" "A.xlsx" "f1" "Formula",
     ExternalLink.mk "wb" "s" "c2" "B.xlsx" "f2" "Formula",
     ExternalLink.mk "wb" "s" "c3" "A.xlsx" "f3" "Formula"]
    "" "external_file" (ELMState.mk [] []) []).1
    ("A.xlsx", ExternalFileGroup.mk "A.xlsx"
      [ExternalLink.mk "wb" "s" "c1" "A.xlsx" "f1" "Formula",
       ExternalLink.mk "wb" "s" "c3" "A.xlsx" "f3" "Formula"] 2)
    (by decide)

theorem pushCap_length_le (cap : Nat) (l : List α) (x : α) :
    (pushCap cap l x).length ≤ cap := by
  simp only [pushCap, List.length_drop, List.length_append]
  omega

theorem pushCap_evicts_oldest (cap : Nat) (l : List α) (x : α)
    (hfull : l.length = cap) (hpos : 0 < cap) :
    pushCap cap l x = l.tail ++ [x] := by
  rcases l with _ | ⟨a, t⟩
  · simp at hfull
    omega
  · rw [pushCap]
    have hfull' : t.length + 1 = cap := by simpa using hfull
    have hl : ((a :: t) ++ [x]).length - cap = 1 := by
      simp only [List.length_append, List.length_cons, List.length_nil]
      omega
    rw [hl, List.cons_append, List.drop_succ_cons, List.drop_zero]
    rfl

/-- The buffer-size invariant of `PerformanceMonitor`. -/
def PMBounded (st : PMonState) : Prop :=
  st.metrics_history.length ≤ st.max_history ∧
  st.operation_timings.length ≤ st.max_history ∧
  st.sys_cpu.length ≤ 100 ∧ st.sys_mem.length ≤ 100 ∧
  st.sys_disk.length ≤ 100

theorem record_metric_max (st : PMonState) (n : String) (v : Int) (u c : String)
    (ts : Int) : (record_metric st n v u c ts).max_history = st.max_history :=
  rfl

theorem pmStep_bounded (st : PMonState) (op : PMOp) (h : PMBounded st) :
    PMBounded (pmStep st op) := by
  rcases op with ⟨n, v, u, c, ts⟩ | ⟨oid, o, now, ctx⟩ | ⟨oid, now, ok⟩ |
    ⟨cpu, mem, disk, ts⟩
  · exact ⟨pushCap_length_le _ _ _, h.2.1, h.2.2.1, h.2.2.2.1, h.2.2.2.2⟩
  · exact ⟨h.1, h.2.1, h.2.2.1, h.2.2.2.1, h.2.2.2.2⟩
  · rw [pmStep, end_operation]
    cases hfind : List.find? (fun p => decide (p.1 = oid)) st.active_operations with
    | none => exact h
    | some p =>
      exact ⟨pushCap_length_le _ _ _, pushCap_length_le _ _ _,
        h.2.2.1, h.2.2.2.1, h.2.2.2.2⟩
  · exact ⟨pushCap_length_le _ _ _, h.2.1, pushCap_length_le _ _ _,
      pushCap_length_le _ _ _, pushCap_length_le _ _ _⟩

theorem pmStep_max (st : PMonState) (op : PMOp) :
    (pmStep st op).max_history = st.max_history := by
  rcases op with ⟨n, v, u, c, ts⟩ | ⟨oid, o, now, ctx⟩ | ⟨oid, now, ok⟩ |
    ⟨cpu, mem, disk, ts⟩
  · rfl
  · rfl
  · rw [pmStep, end_operation]
    cases hfind : List.find? (fun p => decide (p.1 = oid)) st.active_operations with
    | none => rfl
    | some p => rfl
  · rfl

theorem pmRun_max (st : PMonState) (ops : List PMOp) :
    (pmRun st ops).max_history = st.max_history := by
  induction ops generalizing st with
  | nil => rfl
  | cons op ops ih =>
    simp only [pmRun, List.foldl_cons]
    rw [show List.foldl pmStep (pmStep st op) ops = pmRun (pmStep st op) ops
      from rfl]
    rw [ih (pmStep st op), pmStep_max]

theorem pmRun_bounded (st : PMonState) (ops : List PMOp) (h : PMBounded st) :
    PMBounded (pmRun st ops) := by
  induction ops generalizing st with
  | nil => exact h
  | cons op ops ih =>
    simp only [pmRun, List.foldl_cons]
    exact ih _ (pmStep_bounded st op h)

/-- C8: the monitor's buffers are bounded ring buffers — from a freshly
initialised monitor, any sequence of calls leaves `metrics_history` and
`operation_timings` within `max_history` and every system-metric buffer
within 100 entries, and an append to a full buffer evicts the oldest
entry. -/
theorem monitor_buffers_bounded (max_history : Nat) (ops : List PMOp) :
    ((pmRun (pmInit max_history) ops).metrics_history.length ≤ max_history ∧
     (pmRun (pmInit max_history) ops).operation_timings.length ≤ max_history ∧
     (pmRun (pmInit max_history) ops).sys_cpu.length ≤ 100 ∧
     (pmRun (pmInit max_history) ops).sys_mem.length ≤ 100 ∧
     (pmRun (pmInit max_history) ops).sys_disk.length ≤ 100) ∧
    (∀ (cap : Nat) (l : List PerformanceMetric) (x : PerformanceMetric),
      l.length = cap → 0 < cap → pushCap cap l x = l.tail ++ [x]) := by
  constructor
  · have hb := pmRun_bounded (pmInit max_history) ops
      ⟨Nat.zero_le _, Nat.zero_le _, Nat.zero_le _, Nat.zero_le _, Nat.zero_le _⟩
    have hmax : (pmRun (pmInit max_history) ops).max_history = max_history :=
      pmRun_max (pmInit max_history) ops
    exact ⟨le_trans hb.1 (le_of_eq hmax), le_trans hb.2.1 (le_of_eq hmax),
      hb.2.2.1, hb.2.2.2.1, hb.2.2.2.2⟩
  · intro cap l x hfull hpos
    exact pushCap_evicts_oldest cap l x hfull hpos

/-- Witness for C8: default `max_history = 1000`, a short call sequence,
and a full one-slot buffer evicting its only entry. -/
theorem monitor_buffers_bounded_witness :
    (pmRun (pmInit 1000)
      [PMOp.record "m" 1 "u" "general" 0,
       PMOp.startOp "op_1" "save_session" 0 [],
       PMOp.endOp "op_1" 2 true,
       PMOp.sysSample 50 60 70 3]).metrics_history.length ≤ 1000 ∧
    pushCap 1 [PerformanceMetric.mk "a" 0 "u" 0 "c"]
        (PerformanceMetric.mk "b" 0 "u" 0 "c") =
      [PerformanceMetric.mk "b" 0 "u" 0 "c"] := by
  have h := monitor_buffers_bounded 1000
    [PMOp.record "m" 1 "u" "general" 0,
     PMOp.startOp "op_1" "save_session" 0 [],
     PMOp.endOp "op_1" 2 true,
     PMOp.sysSample 50 60 70 3]
  exact ⟨h.1.1, h.2 1 [PerformanceMetric.mk "a" 0 "u" 0 "c"]
    (PerformanceMetric.mk "b" 0 "u" 0 "c") rfl (by decide)⟩

/-- C1: `check_and_update_links` passes a link to `UpdateLink` iff its
target file has a readable modification time on or after the cutoff
`now - CHECK_DAYS days` (with `CHECK_DAYS` defaulting to 14) and the
target is not itself an open workbook; every `UpdateLink` call comes from
some open workbook's `updated_links`, and every selected link is
called. -/
theorem link_update_decision (open_workbooks : List OpenWorkbook)
    (samefile : String → String → Bool) (mtime : String → Option Int)
    (now : Int) (options : String → Option Int) (wb : OpenWorkbook)
    (hwb : wb ∈ open_workbooks) :
    (∀ link,
      link ∈ updated_links open_workbooks samefile mtime
          (threshold_date now (run_check_days options)) wb.links ↔
        link ∈ wb.links ∧
          ∃ lm, mtime link = some lm ∧
            threshold_date now (run_check_days options) ≤ lm ∧
            is_workbook_open open_workbooks samefile link = false) ∧
    (∀ pr ∈ update_calls open_workbooks samefile mtime
        (threshold_date now (run_check_days options)),
      ∃ wb2 ∈ open_workbooks, pr.1 = wb2.fullName ∧
        pr.2 ∈ updated_links open_workbooks samefile mtime
          (threshold_date now (run_check_days options)) wb2.links) ∧
    (∀ link ∈ updated_links open_workbooks samefile mtime
        (threshold_date now (run_check_days options)) wb.links,
      (wb.fullName, link) ∈ update_calls open_workbooks samefile mtime
        (threshold_date now (run_check_days options))) ∧
    (options "CHECK_DAYS" = none → run_check_days options = 14) := by
  set threshold := threshold_date now (run_check_days options) with hth
  refine ⟨fun link => ?_, fun pr hpr => ?_, fun link hlink => ?_, fun h => ?_⟩
  · have hpred : ∀ l : String,
        link_needs_update open_workbooks samefile mtime threshold l = true ↔
          ∃ lm, mtime l = some lm ∧ threshold ≤ lm ∧
            is_workbook_open open_workbooks samefile l = false := by
      intro l
      cases hmt : mtime l with
      | none => simp [link_needs_update, hmt]
      | some lm => simp [link_needs_update, hmt]
    rw [updated_links, List.mem_filter, hpred link]
  · rw [update_calls] at hpr
    rcases List.mem_flatten.mp hpr with ⟨inner, hinner, hmem⟩
    rcases List.mem_map.mp hinner with ⟨wb2, hwb2, hmap⟩
    subst hmap
    rcases List.mem_map.mp hmem with ⟨link, hlinkmem, hpr2⟩
    subst hpr2
    exact ⟨wb2, hwb2, rfl, hlinkmem⟩
  · rw [update_calls]
    apply List.mem_flatten.mpr
    refine ⟨(updated_links open_workbooks samefile mtime threshold wb.links).map
      fun link => (wb.fullName, link), ?_, ?_⟩
    · exact List.mem_map.mpr ⟨wb, hwb, rfl⟩
    · exact List.mem_map.mpr ⟨link, hlink, rfl⟩
  · rw [run_check_days, h]
    rfl

/-- Witness for C1: one open workbook `A.xlsx` linking to `B.xlsx`, whose
file was modified at the run's start (within 14 days of the cutoff), and
which is not open — so `UpdateLink` fires for it. -/
theorem link_update_decision_witness :
    ("C:\\w\\A.xlsx", "C:\\x\\B.xlsx") ∈
      update_calls [OpenWorkbook.mk "C:\\w\\A.xlsx" ["C:\\x\\B.xlsx"]]
        (fun a b => a = b)
        (fun p => if p = "C:\\x\\B.xlsx" then some 0 else none)
        (threshold_date 0 (run_check_days fun _ => none)) := by
  have h := link_update_decision
    [OpenWorkbook.mk "C:\\w\\A.xlsx" ["C:\\x\\B.xlsx"]]
    (fun a b => a = b)
    (fun p => if p = "C:\\x\\B.xlsx" then some 0 else none)
    0 (fun _ => none)
    (OpenWorkbook.mk "C:\\w\\A.xlsx" ["C:\\x\\B.xlsx"]) (by decide)
  exact h.2.2.1 "C:\\x\\B.xlsx" (by decide)

theorem digit_char_props : ∀ k < 10, (Char.ofNat (48 + k)).isWhitespace = false ∧
    Char.ofNat (48 + k) ≠ '/' ∧ Char.ofNat (48 + k) ≠ ':' := by
  decide

theorem natChars_props (n : Nat) : ∀ c ∈ natChars n,
    c.isWhitespace = false ∧ c ≠ '/' ∧ c ≠ ':' := by
  induction n using Nat.strong_induction_on with
  | _ n ih =>
    intro c hc
    rw [natChars] at hc
    by_cases h : n < 10
    · rw [dif_pos h] at hc
      simp only [List.mem_singleton] at hc
      subst hc
      exact digit_char_props n h
    · rw [dif_neg h] at hc
      rcases List.mem_append.mp hc with hc | hc
      · exact ih (n / 10) (Nat.div_lt_self (by omega) (by omega)) c hc
      · simp only [List.mem_singleton] at hc
        subst hc
        exact digit_char_props (n % 10) (Nat.mod_lt _ (by omega))

theorem natChars_ne_nil (n : Nat) : natChars n ≠ [] := by
  rw [natChars]
  by_cases h : n < 10
  · rw [dif_pos h]
    simp
  · rw [dif_neg h]
    simp

theorem pad2_props (n : Nat) : ∀ c ∈ pad2 n,
    c.isWhitespace = false ∧ c ≠ '/' ∧ c ≠ ':' := by
  intro c hc
  rw [pad2] at hc
  by_cases h : n < 10
  · rw [if_pos h] at hc
    rcases List.mem_cons.mp hc with hc | hc
    · subst hc
      exact ⟨by decide, by decide, by decide⟩
    · exact natChars_props n c hc
  · rw [if_neg h] at hc
    exact natChars_props n c hc

theorem pad2_ne_nil (n : Nat) : pad2 n ≠ [] := by
  rw [pad2]
  by_cases h : n < 10
  · rw [if_pos h]
    simp
  · rw [if_neg h]
    exact natChars_ne_nil n

theorem mtimeDateChars_props (y m d : Nat) : ∀ c ∈ mtimeDateChars y m d,
    c.isWhitespace = false ∧ c ≠ '/' := by
  intro c hc
  rw [mtimeDateChars] at hc
  rcases List.mem_append.mp hc with hc | hc
  · exact ⟨(natChars_props y c hc).1, (natChars_props y c hc).2.1⟩
  · rcases List.mem_cons.mp hc with hc | hc
    · subst hc
      exact ⟨by decide, by decide⟩
    · rcases List.mem_append.mp hc with hc | hc
      · exact ⟨(pad2_props m c hc).1, (pad2_props m c hc).2.1⟩
      · rcases List.mem_cons.mp hc with hc | hc
        · subst hc
          exact ⟨by decide, by decide⟩
        · exact ⟨(pad2_props d c hc).1, (pad2_props d c hc).2.1⟩

theorem mtimeTimeChars_ws (h mi s : Nat) : ∀ c ∈ mtimeTimeChars h mi s,
    c.isWhitespace = false := by
  intro c hc
  rw [mtimeTimeChars] at hc
  rcases List.mem_append.mp hc with hc | hc
  · exact (pad2_props h c hc).1
  · rcases List.mem_cons.mp hc with hc | hc
    · subst hc
      decide
    · rcases List.mem_append.mp hc with hc | hc
      · exact (pad2_props mi c hc).1
      · rcases List.mem_cons.mp hc with hc | hc
        · subst hc
          decide
        · exact (pad2_props s c hc).1

theorem mtimeDateChars_ne_nil (y m d : Nat) : mtimeDateChars y m d ≠ [] := by
  rw [mtimeDateChars]
  intro h
  exact natChars_ne_nil y (List.append_eq_nil.mp h).1

theorem mtimeTimeChars_ne_nil (h mi s : Nat) : mtimeTimeChars h mi s ≠ [] := by
  rw [mtimeTimeChars]
  intro hh
  exact pad2_ne_nil h (List.append_eq_nil.mp hh).1

theorem splitP_ne_nil (p : Char → Bool) (cs : List Char) : splitP p cs ≠ [] := by
  induction cs with
  | nil => simp [splitP]
  | cons c rest ih =>
    rw [splitP]
    by_cases h : p c
    · simp [h]
    · rw [if_neg (by simp [h])]
      cases hr : splitP p rest with
      | nil => simp
      | cons g gs => simp

theorem splitP_append_not (p : Char → Bool) (a cs : List Char)
    (h : ∀ c ∈ a, p c = false) :
    splitP p (a ++ cs) =
      (a ++ (splitP p cs).headD []) :: (splitP p cs).tail := by
  induction a with
  | nil =>
    simp only [List.nil_append]
    cases hr : splitP p cs with
    | nil => exact absurd hr (splitP_ne_nil p cs)
    | cons g gs => simp
  | cons c a ih =>
    have hc : p c = false := h c (List.mem_cons_self c a)
    rw [List.cons_append, splitP, if_neg (by simp [hc])]
    rw [ih fun x hx => h x (List.mem_cons_of_mem c hx)]
    simp

theorem splitP_all_not (p : Char → Bool) (cs : List Char)
    (h : ∀ c ∈ cs, p c = false) : splitP p cs = [cs] := by
  have h2 := splitP_append_not p cs [] h
  simpa [splitP] using h2

theorem splitP_cons_true (p : Char → Bool) (c : Char) (cs : List Char)
    (h : p c = true) : splitP p (c :: cs) = [] :: splitP p cs := by
  rw [splitP, if_pos (by simp [h])]

theorem pySplitWhitespace_format (a b : List Char)
    (ha : ∀ c ∈ a, c.isWhitespace = false)
    (hb : ∀ c ∈ b, c.isWhitespace = false)
    (ha0 : a ≠ []) (hb0 : b ≠ []) :
    pySplitWhitespace (a ++ ' ' :: b) = [a, b] := by
  rw [pySplitWhitespace, splitP_append_not Char.isWhitespace a (' ' :: b) ha,
    splitP_cons_true Char.isWhitespace ' ' b (by decide),
    splitP_all_not Char.isWhitespace b hb]
  have hae : a.isEmpty = false := by simpa [List.isEmpty_iff] using ha0
  have hbe : b.isEmpty = false := by simpa [List.isEmpty_iff] using hb0
  simp [List.filter, hae, hbe]

theorem parse_date_part_noslash (a : List Char) (h : ∀ c ∈ a, c ≠ '/') :
    parse_date_part a = none := by
  rw [parse_date_part, pySplitChar,
    splitP_all_not (fun c => decide (c = '/')) a
      (fun c hc => by simp [h c hc])]

/-- C9: `get_file_mtime_str` and `parse_mtime` do not round-trip — for
every file system and path (the missing-file empty string included),
`parse_mtime` returns `None` on what `get_file_mtime_str` produced,
because the `YYYY-MM-DD HH:MM:SS` date token contains no `/` while
`parse_mtime` demands `dd/mm/yyyy hh:mm`. -/
theorem mtime_no_roundtrip (fsys : String → Option FileTime) (path : String) :
    parse_mtime (get_file_mtime_str fsys path) = none := by
  rw [get_file_mtime_str]
  cases hf : fsys path with
  | none => rfl
  | some t =>
    rw [parse_mtime]
    have hdata : (String.mk (mtimeDateChars t.year t.month t.day ++
        ' ' :: mtimeTimeChars t.hour t.minute t.second)).data =
        mtimeDateChars t.year t.month t.day ++
          ' ' :: mtimeTimeChars t.hour t.minute t.second := rfl
    rw [parse_mtime_chars, hdata,
      pySplitWhitespace_format _ _
        (fun c hc => (mtimeDateChars_props t.year t.month t.day c hc).1)
        (mtimeTimeChars_ws t.hour t.minute t.second)
        (mtimeDateChars_ne_nil t.year t.month t.day)
        (mtimeTimeChars_ne_nil t.hour t.minute t.second)]
    show ((parse_date_part (mtimeDateChars t.year t.month t.day)).bind
        fun dmy =>
          (parse_time_part (mtimeTimeChars t.hour t.minute t.second)).bind
            fun hm => mk_datetime dmy.2.2 dmy.2.1 dmy.1 hm.1 hm.2) = none
    rw [parse_date_part_noslash _
      fun c hc => (mtimeDateChars_props t.year t.month t.day c hc).2]
    rfl

end ExcelSessionManager
